import Mathlib

/-!
Verification of the Correlation-Penalized-Networks repository
(file Correlation_Penalized_MLP/mlp.py).

The development shallowly embeds the parts of mlp.py that the claims are
about: the decorrelation-penalty computations of the methods
MLP.set_covariance and MLP.set_correlation (activation batches are real
matrices, represented as functions Fin m -> Fin n -> Real, with the
minibatch dimension first, as in the source), the attribute-writing effect
of those two methods on the MLP object, the configuration dispatch and
event order of the training driver test_mlp, numpy's permutation generator
(a Fisher-Yates index shuffle, parameterized by an arbitrary draw stream),
the best-validation tracking of the training loop, the integer-truncating
minibatch slicing, and a clock-parameterized model of a full training run.
-/

namespace MLP

noncomputable section

variable (m n : ℕ)

/-- Column mean of the activation batch: mlp.py line 132 / 148,
self.hiddenLayer.output.mean(0). -/
def mean_activation (A : Fin m → Fin n → ℝ) (j : Fin n) : ℝ :=
  (∑ k, A k j) / m

/-- Mean-centered activations: mlp.py line 133 / 149,
self.hiddenLayer.output - self.mean_activation (broadcast over rows). -/
def centered_activation (A : Fin m → Fin n → ℝ) (k : Fin m) (j : Fin n) : ℝ :=
  A k j - mean_activation m n A j

/-- Sample covariance matrix of the batch: mlp.py line 134 / 150,
1.0/(minibatch_size-1) * centered_activation.T.dot(centered_activation). -/
def activation_covariance (A : Fin m → Fin n → ℝ) (i j : Fin n) : ℝ :=
  ((m : ℝ) - 1)⁻¹ * ∑ k, centered_activation m n A k i * centered_activation m n A k j

/-- Elementwise square of the covariance matrix: mlp.py line 136. -/
def covariance_squared (A : Fin m → Fin n → ℝ) (i j : Fin n) : ℝ :=
  (activation_covariance m n A i j) ^ 2

/-- The covariance penalty: mlp.py line 137,
covariance_squared.sum() - covariance_squared.diagonal().sum(). -/
def off_diag_cov_sqr (A : Fin m → Fin n → ℝ) : ℝ :=
  (∑ i, ∑ j, covariance_squared m n A i j) - ∑ i, covariance_squared m n A i i

/-- Per-unit sample variance, the radicand of mlp.py line 151:
1.0/(minibatch_size-1) * (centered_activation**2).sum(0). -/
def activation_variance (A : Fin m → Fin n → ℝ) (j : Fin n) : ℝ :=
  ((m : ℝ) - 1)⁻¹ * ∑ k, (centered_activation m n A k j) ^ 2

/-- Inverse standard deviations: mlp.py line 151, the variance vector
raised elementwise to the power -0.5. -/
def inv_std_vec (A : Fin m → Fin n → ℝ) (j : Fin n) : ℝ :=
  (activation_variance m n A j) ^ (-(1 / 2) : ℝ)

/-- Sample correlation matrix: mlp.py line 152,
(inv_std_vec * activation_covariance).T * inv_std_vec, with numpy
broadcasting; entry (i, j) is inv_std_vec i * activation_covariance j i *
inv_std_vec j. -/
def activation_correlation (A : Fin m → Fin n → ℝ) (i j : Fin n) : ℝ :=
  inv_std_vec m n A i * activation_covariance m n A j i * inv_std_vec m n A j

/-- Elementwise square of the correlation matrix: mlp.py line 154. -/
def correlation_squared (A : Fin m → Fin n → ℝ) (i j : Fin n) : ℝ :=
  (activation_correlation m n A i j) ^ 2

/-- The correlation penalty: mlp.py line 155,
correlation_squared.sum() - correlation_squared.diagonal().sum(). -/
def off_diag_cor_sqr (A : Fin m → Fin n → ℝ) : ℝ :=
  (∑ i, ∑ j, correlation_squared m n A i j) - ∑ i, correlation_squared m n A i i

open Classical in
/-- Checked semantics of the covariance-penalty computation: mlp.py lines
131-137 with every division instrumented; the result is none exactly when
a divisor is zero (the batch-mean division by minibatch_size at line 132,
or the division by minibatch_size - 1 at line 134). -/
def off_diag_cov_sqr_checked (A : Fin m → Fin n → ℝ) : Option ℝ :=
  if (m : ℝ) = 0 then none
  else if (m : ℝ) - 1 = 0 then none
  else some (off_diag_cov_sqr m n A)

open Classical in
/-- Checked semantics of the correlation-penalty computation: mlp.py lines
147-155 with every division instrumented; the result is none exactly when
a divisor is zero (the batch-mean division at line 148, the division by
minibatch_size - 1 at lines 150-151, or the negative-power inversion of a
zero standard deviation at line 151). -/
def off_diag_cor_sqr_checked (A : Fin m → Fin n → ℝ) : Option ℝ :=
  if (m : ℝ) = 0 then none
  else if (m : ℝ) - 1 = 0 then none
  else if ∃ j, activation_variance m n A j = 0 then none
  else some (off_diag_cor_sqr m n A)

end

/-- The attribute state of an MLP object relevant to set_covariance and
set_correlation: each field is an instance attribute of mlp.py's MLP class,
None until the corresponding assignment has run. -/
structure State (m n : ℕ) where
  minibatch_size : Option ℕ
  mean_activation : Option (Fin n → ℝ)
  centered_activation : Option (Fin m → Fin n → ℝ)
  activation_covariance : Option (Fin n → Fin n → ℝ)
  covariance_squared : Option (Fin n → Fin n → ℝ)
  off_diag_cov_sqr : Option ℝ
  inv_std_vec : Option (Fin n → ℝ)
  activation_correlation : Option (Fin n → Fin n → ℝ)
  correlation_squared : Option (Fin n → Fin n → ℝ)
  off_diag_cor_sqr : Option ℝ

noncomputable section

variable (m n : ℕ)

/-- MLP.set_covariance (mlp.py lines 123-137) as a state transformer: it
assigns the attributes minibatch_size, mean_activation,
centered_activation, activation_covariance, covariance_squared and
off_diag_cov_sqr, in source order, leaving every other attribute as it
was; A is the value of self.hiddenLayer.output. -/
def set_covariance (A : Fin m → Fin n → ℝ) (s : State m n) : State m n :=
  { s with
    minibatch_size := some m
    mean_activation := some (mean_activation m n A)
    centered_activation := some (centered_activation m n A)
    activation_covariance := some (activation_covariance m n A)
    covariance_squared := some (covariance_squared m n A)
    off_diag_cov_sqr := some (off_diag_cov_sqr m n A) }

/-- MLP.set_correlation (mlp.py lines 139-155) as a state transformer: it
assigns the attributes minibatch_size, mean_activation,
centered_activation, activation_covariance, inv_std_vec,
activation_correlation, correlation_squared and off_diag_cor_sqr, in
source order, leaving every other attribute as it was. -/
def set_correlation (A : Fin m → Fin n → ℝ) (s : State m n) : State m n :=
  { s with
    minibatch_size := some m
    mean_activation := some (mean_activation m n A)
    centered_activation := some (centered_activation m n A)
    activation_covariance := some (activation_covariance m n A)
    inv_std_vec := some (inv_std_vec m n A)
    activation_correlation := some (activation_correlation m n A)
    correlation_squared := some (correlation_squared m n A)
    off_diag_cor_sqr := some (off_diag_cor_sqr m n A) }

end

end MLP

/-- The regularization mode selected by the if/elif chain of test_mlp,
mlp.py lines 228-252. -/
inductive RegMode
  | noPenalty
  | covariance
  | correlation
deriving DecidableEq

/-- The configuration dispatch of test_mlp, mlp.py lines 228-252: the
if/elif chain on the covariance weight cov_reg and the correlation weight
cor_reg; the final else branch is sys.exit(1). -/
def regBranch (cov_reg cor_reg : ℚ) : Except Unit RegMode :=
  if cov_reg = 0 ∧ cor_reg = 0 then .ok .noPenalty
  else if cov_reg ≠ 0 ∧ cor_reg = 0 then .ok .covariance
  else if cov_reg = 0 ∧ cor_reg ≠ 0 then .ok .correlation
  else .error ()

/-- The cost expression assembled by test_mlp, mlp.py lines 228-252, as a
function of the configuration weights and of the scalar values of the
negative log likelihood, the L1 and squared-L2 norms, and the two
penalties; the invalid branch is the sys.exit(1) error. -/
noncomputable def costBranch (cov_reg cor_reg L1_reg L2_reg : ℚ)
    (nll l1 l2sqr covPen corPen : ℝ) : Except Unit ℝ :=
  if cov_reg = 0 ∧ cor_reg = 0 then
    .ok (nll + L1_reg * l1 + L2_reg * l2sqr)
  else if cov_reg ≠ 0 ∧ cor_reg = 0 then
    .ok (nll + L1_reg * l1 + L2_reg * l2sqr + cov_reg * covPen)
  else if cov_reg = 0 ∧ cor_reg ≠ 0 then
    .ok (nll + L1_reg * l1 + L2_reg * l2sqr + cor_reg * corPen)
  else .error ()

/-- The observable steps of test_mlp, in source order: dataset loading
(line 192), MLP construction (line 216), compilation of the validation
function (line 257), gradient construction (line 290), compilation of the
training function (line 307), the start of each epoch (line 329), each
training minibatch update (line 334), each epoch's validation pass
(lines 337-338), and the final report (lines 349-353). -/
inductive TEvent
  | loadData
  | buildModel
  | compileValidate
  | compileGradients
  | compileTrain
  | epochStart (e : ℕ)
  | trainBatch (e i : ℕ)
  | validate (e : ℕ)
  | report
deriving DecidableEq

/-- Trace semantics of test_mlp (mlp.py lines 163-353): the ordered list
of steps the call performs together with its exit status (some 1 for the
sys.exit(1) of line 252, none for a normal return); n_train and n_valid
are the training- and validation-set sizes, and the per-epoch minibatch
counts are the integer-truncating divisions of lines 198-199. -/
def test_mlp_trace (cov_reg cor_reg : ℚ) (n_epochs n_train n_valid batch_size : ℕ) :
    List TEvent × Option ℕ :=
  match regBranch cov_reg cor_reg with
  | .error _ => ([TEvent.loadData, TEvent.buildModel], some 1)
  | .ok _ =>
    let n_train_batches := n_train / batch_size
    let _n_valid_batches := n_valid / batch_size
    let epochs := (List.range n_epochs).flatMap fun e =>
      TEvent.epochStart (e + 1) ::
        ((List.range n_train_batches).map (TEvent.trainBatch (e + 1)) ++
          [TEvent.validate (e + 1)])
    ([TEvent.loadData, TEvent.buildModel, TEvent.compileValidate,
      TEvent.compileGradients, TEvent.compileTrain] ++ epochs ++ [TEvent.report],
     none)

/-- Index swap on a list, the elementary step of numpy's in-place shuffle:
exchanges the entries at positions i and j when both are in range, and is
the identity otherwise (the generator only ever produces in-range pairs). -/
def swapL (l : List ℕ) (i j : ℕ) : List ℕ :=
  if i < l.length ∧ j < l.length then
    (l.set i (l.getD j 0)).set j (l.getD i 0)
  else l

/-- Fisher-Yates descent of numpy's RandomState.shuffle: for i from n-1
down to 1, draw a position and swap entries i and draw i % (i+1); the
draw stream is an arbitrary function, so every statement proved for all
draws covers the actual generator. -/
def fyAux (draw : ℕ → ℕ) : ℕ → List ℕ → List ℕ
  | 0, l => l
  | i + 1, l => fyAux draw i (swapL l (i + 1) (draw (i + 1) % (i + 2)))

/-- Model of numpy's RandomState.permutation(n), used at mlp.py line 330:
a Fisher-Yates shuffle of the initial index list 0, 1, ..., n-1. -/
def npPermutation (n : ℕ) (draw : ℕ → ℕ) : List ℕ :=
  fyAux draw (n - 1) (List.range n)

/-- The per-epoch permutations of the training loop (mlp.py lines
328-330): epoch e of 0, ..., n_epochs - 1 draws a fresh permutation from
the generator's stream for that epoch. -/
def epochPermList (n_epochs n_train : ℕ) (draws : ℕ → ℕ → ℕ) : List (List ℕ) :=
  (List.range n_epochs).map fun e => npPermutation n_train (draws e)

/-- One step of the best-model tracking of mlp.py lines 343-346: at epoch
number e with state (best validation loss so far, best epoch so far), a
new validation loss v replaces the record exactly when v is strictly
smaller; the initial best is numpy inf, modelled as the top element. -/
def trackStep (e : ℕ) (s : WithTop ℚ × ℕ) (v : ℚ) : WithTop ℚ × ℕ :=
  if (v : WithTop ℚ) < s.1 then ((v : WithTop ℚ), e) else s

/-- The best-model tracking folded over a list of per-epoch validation
losses, numbering epochs from e upward. -/
def trackRun : ℕ → (WithTop ℚ × ℕ) → List ℚ → WithTop ℚ × ℕ
  | _, s, [] => s
  | e, s, v :: vs => trackRun (e + 1) (trackStep e s v) vs

/-- The best-model record after the first k epochs of a run whose
validation losses are vs, starting from the initialization of mlp.py
lines 323-324 (best loss inf, best epoch 0) with epochs numbered from 1. -/
def bestAfter (vs : List ℚ) (k : ℕ) : WithTop ℚ × ℕ :=
  trackRun 1 (⊤, 0) (vs.take k)

/-- The training examples touched by minibatch i of an epoch: mlp.py
lines 312-313 take the permutation slice from i * batch_size to
(i + 1) * batch_size. -/
def batchSlice (perm : List ℕ) (batch_size i : ℕ) : List ℕ :=
  (perm.drop (batch_size * i)).take batch_size

/-- All training examples touched during one epoch: minibatch indices run
over range(n_train_batches) with n_train_batches = n_train / batch_size,
mlp.py lines 198 and 332. -/
def epochExamples (perm : List ℕ) (n_train batch_size : ℕ) : List ℕ :=
  (List.range (n_train / batch_size)).flatMap fun i => batchSlice perm batch_size i

/-- The outputs of one call to test_mlp that the determinism claim is
about: the parameter vector after each epoch, the reported per-epoch
validation errors, and the reported wall-clock duration (mlp.py lines
323-353). -/
structure RunResult where
  paramTraj : List (List ℝ)
  valErrors : List ℚ
  duration : ℤ

/-- One epoch's sequence of parameter updates (mlp.py lines 332-334):
fold the black-box gradient-descent step G over the permutation slices of
the epoch, one update per minibatch, minibatch count by truncating
division. -/
noncomputable def trainEpoch (G : List ℝ → List ℕ → List ℝ)
    (perm : List ℕ) (n_train batch_size : ℕ) (p : List ℝ) : List ℝ :=
  (List.range (n_train / batch_size)).foldl
    (fun q i => G q (batchSlice perm batch_size i)) p

/-- A full training run, mlp.py lines 192-353, at the level of the
determinism claim: G is the compiled gradient-descent update for one
minibatch (a function of the current parameters and the minibatch's
example indices — the dataset is part of the closed-over compiled
function, as in the source), V maps a parameter vector to the epoch's
averaged validation error (again closing over the fixed validation set),
init builds the initial parameters from the generator stream, and stream
is the seeded generator: stream seed 0 feeds initialization, stream seed
(e+1) feeds epoch e's permutation draw, modelling the single seeded
random source threaded through the run. The wall-clock readings t0, t1
(timeit.default_timer at lines 325 and 348) enter only the reported
duration. -/
noncomputable def fullRun (G : List ℝ → List ℕ → List ℝ) (V : List ℝ → ℚ)
    (init : (ℕ → ℕ) → List ℝ) (stream : ℕ → ℕ → ℕ → ℕ)
    (seed n_epochs n_train batch_size : ℕ) (t0 t1 : ℤ) : RunResult :=
  let p0 := init (stream seed 0)
  let fin := (List.range n_epochs).foldl
    (fun st e =>
      let perm := npPermutation n_train (stream seed (e + 1))
      let p := trainEpoch G perm n_train batch_size st.1
      (p, st.2.1 ++ [p], st.2.2 ++ [V p]))
    (p0, ([p0] : List (List ℝ)), ([] : List ℚ))
  { paramTraj := fin.2.1, valErrors := fin.2.2, duration := t1 - t0 }

lemma set_getD_self : ∀ (l : List ℕ) (i : ℕ), l.set i (l.getD i 0) = l
  | [], _ => rfl
  | _ :: _, 0 => rfl
  | x :: xs, i + 1 => by
    simpa [List.set, List.getD] using congrArg (x :: ·) (set_getD_self xs i)

lemma cons_getD_set_perm : ∀ (xs : List ℕ) (k x : ℕ), k < xs.length →
    List.Perm ((xs.getD k 0) :: xs.set k x) (x :: xs)
  | [], k, _, hk => absurd hk (by simp)
  | y :: t, 0, x, _ => by
    simpa [List.getD] using List.Perm.swap x y t
  | y :: t, k + 1, x, hk => by
    have hk' : k < t.length := by simpa using hk
    have h1 : List.Perm (t.getD k 0 :: y :: t.set k x) (y :: t.getD k 0 :: t.set k x) :=
      List.Perm.swap y (t.getD k 0) (t.set k x)
    have h2 : List.Perm (y :: t.getD k 0 :: t.set k x) (y :: x :: t) :=
      (cons_getD_set_perm t k x hk').cons y
    have h3 : List.Perm (y :: x :: t) (x :: y :: t) := List.Perm.swap x y t
    simpa [List.getD] using (h1.trans h2).trans h3

lemma set_set_perm_lt : ∀ (l : List ℕ) (i j : ℕ), i < j → j < l.length →
    List.Perm ((l.set i (l.getD j 0)).set j (l.getD i 0)) l
  | [], _, j, _, hj => absurd hj (by simp)
  | x :: xs, 0, j + 1, _, hj => by
    have hj' : j < xs.length := by simpa using hj
    simpa [List.getD] using cons_getD_set_perm xs j x hj'
  | x :: xs, i + 1, j + 1, hij, hj => by
    have hij' : i < j := Nat.lt_of_succ_lt_succ hij
    have hj' : j < xs.length := by simpa using hj
    simpa [List.getD] using (set_set_perm_lt xs i j hij' hj').cons x

lemma swapL_perm (l : List ℕ) (i j : ℕ) : List.Perm (swapL l i j) l := by
  unfold swapL
  split_ifs with h
  · obtain ⟨hi, hj⟩ := h
    rcases lt_trichotomy i j with hij | rfl | hij
    · exact set_set_perm_lt l i j hij hj
    · rw [List.set_set, set_getD_self]
    · rw [List.set_comm _ _ _ (Nat.ne_of_gt hij)]
      exact set_set_perm_lt l j i hij hi
  · exact List.Perm.refl l

lemma fyAux_perm (draw : ℕ → ℕ) : ∀ (i : ℕ) (l : List ℕ),
    List.Perm (fyAux draw i l) l
  | 0, _ => List.Perm.refl _
  | i + 1, l =>
    (fyAux_perm draw i _).trans (swapL_perm l (i + 1) (draw (i + 1) % (i + 2)))

lemma npPermutation_perm (n : ℕ) (draw : ℕ → ℕ) :
    List.Perm (npPermutation n draw) (List.range n) :=
  fyAux_perm draw (n - 1) (List.range n)

lemma trackRun_snoc : ∀ (l : List ℚ) (e : ℕ) (s : WithTop ℚ × ℕ) (v : ℚ),
    trackRun e s (l ++ [v]) = trackStep (e + l.length) (trackRun e s l) v
  | [], e, s, v => by simp [trackRun]
  | w :: l, e, s, v => by
    simpa [trackRun, Nat.add_comm, Nat.add_left_comm] using
      trackRun_snoc l (e + 1) (trackStep e s w) v

lemma bestAfter_succ (vs : List ℚ) (k : ℕ) (hk : k < vs.length) :
    bestAfter vs (k + 1) = trackStep (k + 1) (bestAfter vs k) (vs.get ⟨k, hk⟩) := by
  have htake : vs.take (k + 1) = vs.take k ++ [vs.get ⟨k, hk⟩] := by
    rw [List.take_succ]
    simp [List.getElem?_eq_getElem hk]
  have hlen : (vs.take k).length = k := by
    simp [List.length_take, Nat.min_eq_left (Nat.le_of_lt hk)]
  rw [bestAfter, htake, trackRun_snoc, hlen, Nat.add_comm 1 k]
  rfl

lemma epochExamples_eq_take (perm : List ℕ) (bs : ℕ) :
    ∀ k, (List.range k).flatMap (fun i => batchSlice perm bs i) = perm.take (bs * k)
  | 0 => by simp
  | k + 1 => by
    rw [List.range_succ, List.flatMap_append, epochExamples_eq_take perm bs k]
    simp [batchSlice, Nat.mul_succ, List.take_add]

lemma rpow_half_mul_cancel {V : ℝ} (hV : 0 < V) :
    V ^ (-(1 / 2) : ℝ) * V * V ^ (-(1 / 2) : ℝ) = 1 := by
  have h2 : V ^ (-(1 / 2) : ℝ) * V = V ^ ((1 / 2 : ℝ)) := by
    calc V ^ (-(1 / 2) : ℝ) * V = V ^ (-(1 / 2) : ℝ) * V ^ (1 : ℝ) := by
          rw [Real.rpow_one]
      _ = V ^ ((-(1 / 2) + 1 : ℝ)) := (Real.rpow_add hV _ _).symm
      _ = V ^ ((1 / 2 : ℝ)) := by norm_num
  rw [h2, ← Real.rpow_add hV]
  norm_num

lemma covariance_diag_eq_variance (m n : ℕ) (A : Fin m → Fin n → ℝ) (j : Fin n) :
    MLP.activation_covariance m n A j j = MLP.activation_variance m n A j := by
  simp [MLP.activation_covariance, MLP.activation_variance, pow_two]

lemma correlation_diag_one (m n : ℕ) (A : Fin m → Fin n → ℝ) (j : Fin n)
    (h : 0 < MLP.activation_variance m n A j) :
    MLP.activation_correlation m n A j j = 1 := by
  unfold MLP.activation_correlation MLP.inv_std_vec
  rw [covariance_diag_eq_variance]
  exact rpow_half_mul_cancel h

lemma identcols_covariance (m n : ℕ) (A : Fin m → Fin n → ℝ) (g : Fin m → ℝ)
    (hA : ∀ k j, A k j = g k) (i j : Fin n) :
    MLP.activation_covariance m n A i j =
      ((m : ℝ) - 1)⁻¹ * ∑ k, (g k - (∑ k2, g k2) / m) ^ 2 := by
  simp [MLP.activation_covariance, MLP.centered_activation, MLP.mean_activation, hA,
    pow_two]

lemma identcols_variance (m n : ℕ) (A : Fin m → Fin n → ℝ) (g : Fin m → ℝ)
    (hA : ∀ k j, A k j = g k) (j : Fin n) :
    MLP.activation_variance m n A j =
      ((m : ℝ) - 1)⁻¹ * ∑ k, (g k - (∑ k2, g k2) / m) ^ 2 := by
  simp [MLP.activation_variance, MLP.centered_activation, MLP.mean_activation, hA]

lemma identcols_variance_pos (m : ℕ) (g : Fin m → ℝ) (hm : 2 ≤ m)
    (hnc : ∃ k1 k2, g k1 ≠ g k2) :
    0 < ((m : ℝ) - 1)⁻¹ * ∑ k, (g k - (∑ k2, g k2) / m) ^ 2 := by
  have hm' : (2 : ℝ) ≤ (m : ℝ) := by exact_mod_cast hm
  have hinv : 0 < ((m : ℝ) - 1)⁻¹ := inv_pos.mpr (by linarith)
  obtain ⟨k1, k2, hne⟩ := hnc
  have hex : ∃ k, g k ≠ (∑ k2, g k2) / m := by
    by_contra hall
    push_neg at hall
    exact hne ((hall k1).trans (hall k2).symm)
  obtain ⟨k0, hk0⟩ := hex
  have hS : 0 < ∑ k, (g k - (∑ k2, g k2) / m) ^ 2 := by
    refine Finset.sum_pos' (fun k _ => sq_nonneg _) ⟨k0, Finset.mem_univ k0, ?_⟩
    have hne0 : g k0 - (∑ k2, g k2) / m ≠ 0 := sub_ne_zero.mpr hk0
    exact lt_of_le_of_ne (sq_nonneg _) (Ne.symm (pow_ne_zero 2 hne0))
  exact mul_pos hinv hS

/-- Claim C2: for an activation batch whose n_hidden columns are all
identical and non-constant across the batch, MLP.set_correlation's penalty
off_diag_cor_sqr equals n_hidden * (n_hidden - 1); and in general
(whenever every unit has positive sample variance) the computed
correlation matrix has every diagonal entry exactly 1, so the subtracted
diagonal sum of its elementwise square is exactly n_hidden. -/
theorem correlation_penalty_identical_columns :
    (∀ (m n : ℕ) (A : Fin m → Fin n → ℝ) (g : Fin m → ℝ),
      2 ≤ m → (∀ k j, A k j = g k) → (∃ k1 k2, g k1 ≠ g k2) →
      MLP.off_diag_cor_sqr m n A = (n : ℝ) * ((n : ℝ) - 1)) ∧
    (∀ (m n : ℕ) (A : Fin m → Fin n → ℝ),
      (∀ j, 0 < MLP.activation_variance m n A j) →
      (∀ j, MLP.activation_correlation m n A j j = 1) ∧
      (∑ j, MLP.correlation_squared m n A j j) = (n : ℝ) ∧
      MLP.off_diag_cor_sqr m n A =
        (∑ i, ∑ j, MLP.correlation_squared m n A i j) - (n : ℝ)) := by
  constructor
  · intro m n A g hm hA hnc
    have hV : 0 < ((m : ℝ) - 1)⁻¹ * ∑ k, (g k - (∑ k2, g k2) / m) ^ 2 :=
      identcols_variance_pos m g hm hnc
    have hcor : ∀ i j, MLP.activation_correlation m n A i j = 1 := by
      intro i j
      unfold MLP.activation_correlation MLP.inv_std_vec
      rw [identcols_variance m n A g hA i, identcols_variance m n A g hA j,
        identcols_covariance m n A g hA j i]
      exact rpow_half_mul_cancel hV
    have h1 : MLP.off_diag_cor_sqr m n A = (n : ℝ) * (n : ℝ) - (n : ℝ) := by
      simp [MLP.off_diag_cor_sqr, MLP.correlation_squared, hcor, Finset.card_univ]
    rw [h1]; ring
  · intro m n A hvar
    have hdiag : ∀ j, MLP.activation_correlation m n A j j = 1 := fun j =>
      correlation_diag_one m n A j (hvar j)
    have hsum : (∑ j, MLP.correlation_squared m n A j j) = (n : ℝ) := by
      simp [MLP.correlation_squared, hdiag, Finset.card_univ]
    refine ⟨hdiag, hsum, ?_⟩
    unfold MLP.off_diag_cor_sqr
    rw [hsum]

theorem correlation_penalty_identical_columns_witness :
    MLP.off_diag_cor_sqr 2 2 (fun k _ => (k.val : ℝ)) = (2 : ℝ) * ((2 : ℝ) - 1) ∧
    MLP.activation_correlation 2 2 (fun k _ => (k.val : ℝ)) 0 0 = 1 := by
  constructor
  · exact correlation_penalty_identical_columns.1 2 2 _ (fun k => (k.val : ℝ))
      (by norm_num) (fun k j => rfl) ⟨0, 1, by simp⟩
  · refine (correlation_penalty_identical_columns.2 2 2 _ ?_).1 0
    intro j
    rw [identcols_variance 2 2 (fun k _ => (k.val : ℝ)) (fun k => (k.val : ℝ))
      (fun _ _ => rfl) j]
    exact identcols_variance_pos 2 _ (le_refl 2) ⟨0, 1, by simp⟩

/-- Claim C3: for a batch with more than one row, the covariance penalty
off_diag_cov_sqr equals the sum of the squared off-diagonal entries of
the sample covariance matrix, where that matrix is the mean-centered
batch's Gram matrix normalized by batch_size - 1. -/
theorem covariance_penalty_off_diagonal :
    ∀ (m n : ℕ) (A : Fin m → Fin n → ℝ), 1 < m →
      (∀ i j, MLP.activation_covariance m n A i j =
        ((m : ℝ) - 1)⁻¹ * ∑ k, (A k i - MLP.mean_activation m n A i) *
          (A k j - MLP.mean_activation m n A j)) ∧
      MLP.off_diag_cov_sqr m n A =
        ∑ i, ∑ j ∈ Finset.univ.erase i, (MLP.activation_covariance m n A i j) ^ 2 := by
  intro m n A _
  refine ⟨fun i j => rfl, ?_⟩
  unfold MLP.off_diag_cov_sqr MLP.covariance_squared
  rw [← Finset.sum_sub_distrib]
  refine Finset.sum_congr rfl fun i _ => ?_
  rw [← Finset.add_sum_erase _ _ (Finset.mem_univ i)]
  ring

theorem covariance_penalty_off_diagonal_witness :
    MLP.off_diag_cov_sqr 2 2 (fun k j => ((k.val + j.val : ℕ) : ℝ)) =
      ∑ i, ∑ j ∈ Finset.univ.erase i,
        (MLP.activation_covariance 2 2 (fun k j => ((k.val + j.val : ℕ) : ℝ)) i j) ^ 2 :=
  (covariance_penalty_off_diagonal 2 2 _ (by norm_num)).2

/-- Claim C4: for a minibatch in which some hidden unit is constant (zero
variance), the correlation computation of mlp.py line 151 inverts a zero
standard deviation: the unit's sample variance is exactly 0, the
inv_std_vec entry is the division-by-zero term 0 ** (-0.5), and the
division-checked semantics of set_correlation signals the failure (none),
which the unchecked source code neither detects nor recovers from. -/
theorem zero_variance_division_by_zero :
    ∀ (m n : ℕ) (A : Fin m → Fin n → ℝ) (j : Fin n) (c : ℝ),
      2 ≤ m → (∀ k, A k j = c) →
      MLP.activation_variance m n A j = 0 ∧
      MLP.inv_std_vec m n A j = (0 : ℝ) ^ (-(1 / 2) : ℝ) ∧
      MLP.off_diag_cor_sqr_checked m n A = none := by
  intro m n A j c hm hconst
  have hm0 : (m : ℝ) ≠ 0 := Nat.cast_ne_zero.mpr (by omega)
  have hm2 : (2 : ℝ) ≤ (m : ℝ) := by exact_mod_cast hm
  have hmean : MLP.mean_activation m n A j = c := by
    unfold MLP.mean_activation
    simp only [hconst, Finset.sum_const, Finset.card_univ, Fintype.card_fin,
      nsmul_eq_mul]
    exact mul_div_cancel_left₀ c hm0
  have hvar : MLP.activation_variance m n A j = 0 := by
    simp [MLP.activation_variance, MLP.centered_activation, hconst, hmean]
  refine ⟨hvar, ?_, ?_⟩
  · rw [MLP.inv_std_vec, hvar]
  · unfold MLP.off_diag_cor_sqr_checked
    rw [if_neg hm0, if_neg (by linarith : ¬((m : ℝ) - 1 = 0)), if_pos ⟨j, hvar⟩]

theorem zero_variance_division_by_zero_witness :
    MLP.activation_variance 2 1 (fun _ _ => (5 : ℝ)) 0 = 0 ∧
    MLP.inv_std_vec 2 1 (fun _ _ => (5 : ℝ)) 0 = (0 : ℝ) ^ (-(1 / 2) : ℝ) ∧
    MLP.off_diag_cor_sqr_checked 2 1 (fun _ _ => (5 : ℝ)) = none :=
  zero_variance_division_by_zero 2 1 _ 0 5 (by norm_num) (fun _ => rfl)

/-- Claim C1: when both the covariance and correlation weights are
nonzero, test_mlp exits with status 1 before compiling any training or
validation function and before any epoch (its trace stops at dataset
loading and model construction); for every other weight combination there
is no such exit and exactly one of no penalty, the covariance penalty, or
the correlation penalty is added to the cost. -/
theorem exclusive_regularization_dispatch :
    ∀ (cov_reg cor_reg L1_reg L2_reg : ℚ) (n_epochs n_train n_valid batch_size : ℕ)
      (nll l1 l2sqr covPen corPen : ℝ),
      (cov_reg ≠ 0 ∧ cor_reg ≠ 0 →
        (test_mlp_trace cov_reg cor_reg n_epochs n_train n_valid batch_size).2 = some 1 ∧
        (test_mlp_trace cov_reg cor_reg n_epochs n_train n_valid batch_size).1 =
          [TEvent.loadData, TEvent.buildModel] ∧
        costBranch cov_reg cor_reg L1_reg L2_reg nll l1 l2sqr covPen corPen =
          .error ()) ∧
      (¬(cov_reg ≠ 0 ∧ cor_reg ≠ 0) →
        (test_mlp_trace cov_reg cor_reg n_epochs n_train n_valid batch_size).2 = none ∧
        (cov_reg = 0 ∧ cor_reg = 0 →
          costBranch cov_reg cor_reg L1_reg L2_reg nll l1 l2sqr covPen corPen =
            .ok (nll + L1_reg * l1 + L2_reg * l2sqr)) ∧
        (cov_reg ≠ 0 ∧ cor_reg = 0 →
          costBranch cov_reg cor_reg L1_reg L2_reg nll l1 l2sqr covPen corPen =
            .ok (nll + L1_reg * l1 + L2_reg * l2sqr + cov_reg * covPen)) ∧
        (cov_reg = 0 ∧ cor_reg ≠ 0 →
          costBranch cov_reg cor_reg L1_reg L2_reg nll l1 l2sqr covPen corPen =
            .ok (nll + L1_reg * l1 + L2_reg * l2sqr + cor_reg * corPen))) := by
  intro cov_reg cor_reg L1_reg L2_reg n_epochs n_train n_valid batch_size
    nll l1 l2sqr covPen corPen
  by_cases hcov : cov_reg = 0 <;> by_cases hcor : cor_reg = 0 <;>
    simp [test_mlp_trace, regBranch, costBranch, hcov, hcor]

theorem exclusive_regularization_dispatch_witness :
    (test_mlp_trace 1 1 1 4 2 2).2 = some 1 ∧
    (test_mlp_trace 0 0 1 4 2 2).2 = none := by
  constructor
  · exact ((exclusive_regularization_dispatch 1 1 0 0 1 4 2 2 0 0 0 0 0).1
      (by norm_num)).1
  · exact ((exclusive_regularization_dispatch 0 0 0 0 1 4 2 2 0 0 0 0 0).2
      (by norm_num)).1

/-- Claim C5 counterexample: with batch_size 1 (and an otherwise valid
configuration: no penalty weights, one epoch, three training examples),
test_mlp does not exit — its trace has exit status none and contains the
start of epoch 1 — so a batch size of 1 is not rejected at startup and
training is attempted. -/
theorem batch_size_one_not_rejected :
    (test_mlp_trace 0 0 1 3 1 1).2 = none ∧
    TEvent.epochStart 1 ∈ (test_mlp_trace 0 0 1 3 1 1).1 := by
  constructor <;> decide

/-- Claim C5 amended: test_mlp never validates the batch size: the exit
taken at startup depends only on the two regularization weights (it fires
exactly when both are nonzero, for every batch size including 1), a valid
weight configuration always proceeds to epoch 1, and with batch size 1
the penalty computations divide by minibatch_size - 1 = 0, a failure that
the division-checked semantics locates inside set_covariance /
set_correlation, i.e. during training, not at startup. -/
theorem batch_size_unvalidated :
    ∀ (cov_reg cor_reg : ℚ) (n_epochs n_train n_valid batch_size : ℕ),
      ((test_mlp_trace cov_reg cor_reg n_epochs n_train n_valid batch_size).2 = some 1 ↔
        (cov_reg ≠ 0 ∧ cor_reg ≠ 0)) ∧
      (¬(cov_reg ≠ 0 ∧ cor_reg ≠ 0) → 0 < n_epochs →
        TEvent.epochStart 1 ∈
          (test_mlp_trace cov_reg cor_reg n_epochs n_train n_valid batch_size).1) ∧
      (∀ (nh : ℕ) (A : Fin 1 → Fin nh → ℝ),
        MLP.off_diag_cov_sqr_checked 1 nh A = none ∧
        MLP.off_diag_cor_sqr_checked 1 nh A = none) := by
  intro cov_reg cor_reg n_epochs n_train n_valid batch_size
  refine ⟨?_, ?_, ?_⟩
  · by_cases hcov : cov_reg = 0 <;> by_cases hcor : cor_reg = 0 <;>
      simp [test_mlp_trace, regBranch, hcov, hcor]
  · intro hvalid hep
    have hok : ∃ mode, regBranch cov_reg cor_reg = .ok mode := by
      by_cases hcov : cov_reg = 0
      · by_cases hcor : cor_reg = 0
        · exact ⟨.noPenalty, by simp [regBranch, hcov, hcor]⟩
        · exact ⟨.correlation, by simp [regBranch, hcov, hcor]⟩
      · by_cases hcor : cor_reg = 0
        · exact ⟨.covariance, by simp [regBranch, hcov, hcor]⟩
        · exact absurd ⟨hcov, hcor⟩ hvalid
    obtain ⟨mode, hmode⟩ := hok
    have hmem : TEvent.epochStart 1 ∈ (List.range n_epochs).flatMap fun e =>
        TEvent.epochStart (e + 1) ::
          (List.map (TEvent.trainBatch (e + 1)) (List.range (n_train / batch_size)) ++
            [TEvent.validate (e + 1)]) :=
      List.mem_flatMap.mpr ⟨0, List.mem_range.mpr hep, List.mem_cons_self _ _⟩
    unfold test_mlp_trace
    rw [hmode]
    simp only [List.mem_append]
    exact Or.inl (Or.inr hmem)
  · intro nh A
    constructor <;>
      simp [MLP.off_diag_cov_sqr_checked, MLP.off_diag_cor_sqr_checked]

theorem batch_size_unvalidated_witness :
    TEvent.epochStart 1 ∈ (test_mlp_trace 0 0 2 3 1 1).1 ∧
    MLP.off_diag_cov_sqr_checked 1 1 (fun _ _ => (0 : ℝ)) = none :=
  ⟨(batch_size_unvalidated 0 0 2 3 1 1).2.1 (by norm_num) (by norm_num),
   ((batch_size_unvalidated 0 0 2 3 1 1).2.2 1 _).1⟩

/-- Claim C6: the best-model record of the training loop is updated at an
epoch exactly when that epoch's validation error is strictly below the
best seen so far (so a tie leaves the record — and hence the first-seen
best — unchanged), and the recorded best error never increases from one
epoch to the next. -/
theorem best_model_tracking :
    ∀ (vs : List ℚ) (k : ℕ) (hk : k < vs.length),
      (bestAfter vs (k + 1)).1 ≤ (bestAfter vs k).1 ∧
      (¬((vs.get ⟨k, hk⟩ : WithTop ℚ) < (bestAfter vs k).1) →
        bestAfter vs (k + 1) = bestAfter vs k) ∧
      (((vs.get ⟨k, hk⟩ : WithTop ℚ) < (bestAfter vs k).1) →
        bestAfter vs (k + 1) = ((vs.get ⟨k, hk⟩ : WithTop ℚ), k + 1)) := by
  intro vs k hk
  rw [bestAfter_succ vs k hk]
  unfold trackStep
  refine ⟨?_, ?_, ?_⟩
  · split_ifs with h
    · exact le_of_lt h
    · exact le_refl _
  · intro hn
    rw [if_neg hn]
  · intro h
    rw [if_pos h]

theorem best_model_tracking_witness :
    (bestAfter [(1 : ℚ), 1] 2).1 ≤ (bestAfter [(1 : ℚ), 1] 1).1 ∧
    bestAfter [(1 : ℚ), 1] 2 = bestAfter [(1 : ℚ), 1] 1 := by
  have h := best_model_tracking [(1 : ℚ), 1] 1 (by decide)
  exact ⟨h.1, h.2.1 (by decide)⟩

/-- Claim C7: the index sequence generated at the start of each epoch is
a permutation of the range 0, ..., n_train - 1 — its length is n_train,
it has no duplicates, and its members are exactly the indices below
n_train — for every epoch and every draw stream of the generator, and
each epoch draws its own fresh permutation from the stream. -/
theorem epoch_permutation_bijection :
    ∀ (n_epochs n_train : ℕ) (draws : ℕ → ℕ → ℕ) (e : ℕ), e < n_epochs →
      (epochPermList n_epochs n_train draws).getD e [] =
        npPermutation n_train (draws e) ∧
      List.Perm (npPermutation n_train (draws e)) (List.range n_train) ∧
      (npPermutation n_train (draws e)).length = n_train ∧
      (npPermutation n_train (draws e)).Nodup ∧
      (∀ k, k ∈ npPermutation n_train (draws e) ↔ k < n_train) := by
  intro n_epochs n_train draws e he
  have hp := npPermutation_perm n_train (draws e)
  refine ⟨?_, hp, ?_, ?_, ?_⟩
  · have hlen : e < ((List.range n_epochs).map fun e =>
        npPermutation n_train (draws e)).length := by simpa using he
    rw [epochPermList, List.getD_eq_getElem _ _ hlen]
    simp
  · exact hp.length_eq.trans (List.length_range n_train)
  · exact hp.nodup_iff.mpr (List.nodup_range n_train)
  · intro k
    rw [hp.mem_iff, List.mem_range]

theorem epoch_permutation_bijection_witness :
    (epochPermList 2 3 (fun e i => e + i)).getD 1 [] =
      npPermutation 3 (fun i => 1 + i) ∧
    (npPermutation 3 (fun i => 1 + i)).length = 3 ∧
    (npPermutation 3 (fun i => 1 + i)).Nodup ∧
    2 ∈ npPermutation 3 (fun i => 1 + i) := by
  have h := epoch_permutation_bijection 2 3 (fun e i => e + i) 1 (by decide)
  exact ⟨h.1, h.2.2.1, h.2.2.2.1, (h.2.2.2.2 2).mpr (by decide)⟩

/-- Claim C8: the per-epoch minibatch count is the integer-truncating
division of the partition size by batch_size, so the examples touched in
an epoch are exactly the first n / batch_size * batch_size entries of the
epoch's index sequence, and the n % batch_size remaining examples — at
most batch_size - 1 of them — are excluded; instantiating the index
sequence with the identity range gives the validation loop's coverage. -/
theorem truncated_batch_coverage :
    ∀ (n batch_size : ℕ) (perm : List ℕ), 0 < batch_size → perm.length = n →
      epochExamples perm n batch_size = perm.take (n / batch_size * batch_size) ∧
      (epochExamples perm n batch_size).length = n - n % batch_size ∧
      n - (epochExamples perm n batch_size).length = n % batch_size ∧
      n % batch_size < batch_size := by
  intro n bs perm hbs hlen
  have h1 : epochExamples perm n bs = perm.take (bs * (n / bs)) :=
    epochExamples_eq_take perm bs (n / bs)
  have hle : bs * (n / bs) ≤ n := by
    rw [Nat.mul_comm]
    exact Nat.div_mul_le_self n bs
  have hlen2 : (epochExamples perm n bs).length = bs * (n / bs) := by
    rw [h1, List.length_take, hlen, Nat.min_eq_left hle]
  have hmod : n % bs + bs * (n / bs) = n := Nat.mod_add_div n bs
  have hmlt : n % bs < bs := Nat.mod_lt n hbs
  refine ⟨?_, ?_, ?_, hmlt⟩
  · rw [h1, Nat.mul_comm]
  · omega
  · omega

theorem truncated_batch_coverage_witness :
    epochExamples [4, 3, 2, 1, 0] 5 2 = [4, 3, 2, 1, 0].take (5 / 2 * 2) ∧
    5 % 2 < 2 := by
  have h := truncated_batch_coverage 5 2 [4, 3, 2, 1, 0] (by decide) (by decide)
  exact ⟨h.1, h.2.2.2⟩

/-- Claim C9: a training run is deterministic given seed, data and
configuration: the parameter trajectory and the reported per-epoch
validation errors of fullRun do not depend on the wall-clock readings,
the only per-run input not derived from the seeded generator stream, the
dataset and the configuration; hence two runs with identical seed, data
and configuration produce identical trajectories and validation errors. -/
theorem run_determinism :
    ∀ (G : List ℝ → List ℕ → List ℝ) (V : List ℝ → ℚ) (init : (ℕ → ℕ) → List ℝ)
      (stream : ℕ → ℕ → ℕ → ℕ) (seed n_epochs n_train batch_size : ℕ)
      (t0 t1 t0' t1' : ℤ),
      (fullRun G V init stream seed n_epochs n_train batch_size t0 t1).paramTraj =
        (fullRun G V init stream seed n_epochs n_train batch_size t0' t1').paramTraj ∧
      (fullRun G V init stream seed n_epochs n_train batch_size t0 t1).valErrors =
        (fullRun G V init stream seed n_epochs n_train batch_size t0' t1').valErrors :=
  fun _ _ _ _ _ _ _ _ _ _ _ _ => ⟨rfl, rfl⟩

/-- Claim C10 counterexample: starting from a fresh MLP state, running
set_covariance and running set_correlation do not differ only in the
final result attributes off_diag_cov_sqr and off_diag_cor_sqr: the
attribute covariance_squared is written by set_covariance but not by
set_correlation, so it too differs between the two operations. -/
theorem penalty_setters_footprints_differ :
    (MLP.set_covariance 1 1 (fun _ _ => (0 : ℝ))
        ⟨none, none, none, none, none, none, none, none, none, none⟩).covariance_squared ≠
    (MLP.set_correlation 1 1 (fun _ _ => (0 : ℝ))
        ⟨none, none, none, none, none, none, none, none, none, none⟩).covariance_squared := by
  simp [MLP.set_covariance, MLP.set_correlation]

/-- Claim C10 amended: set_covariance and set_correlation are not pure
penalty computations: both write the shared attributes minibatch_size,
mean_activation, centered_activation and activation_covariance
(overwriting whatever a prior call stored there); in addition
set_covariance writes covariance_squared and its result
off_diag_cov_sqr, leaving the correlation-specific attributes untouched,
and set_correlation writes inv_std_vec, activation_correlation,
correlation_squared and its result off_diag_cor_sqr, leaving the
covariance-specific attributes untouched; composed in either order they
yield the same state, with both final results surviving in their
distinct attributes. -/
theorem penalty_setters_frame_effects :
    ∀ (m n : ℕ) (A : Fin m → Fin n → ℝ) (s : MLP.State m n),
      ((MLP.set_covariance m n A s).minibatch_size = some m ∧
       (MLP.set_covariance m n A s).mean_activation =
         some (MLP.mean_activation m n A) ∧
       (MLP.set_covariance m n A s).centered_activation =
         some (MLP.centered_activation m n A) ∧
       (MLP.set_covariance m n A s).activation_covariance =
         some (MLP.activation_covariance m n A)) ∧
      ((MLP.set_correlation m n A s).minibatch_size = some m ∧
       (MLP.set_correlation m n A s).mean_activation =
         some (MLP.mean_activation m n A) ∧
       (MLP.set_correlation m n A s).centered_activation =
         some (MLP.centered_activation m n A) ∧
       (MLP.set_correlation m n A s).activation_covariance =
         some (MLP.activation_covariance m n A)) ∧
      ((MLP.set_covariance m n A s).inv_std_vec = s.inv_std_vec ∧
       (MLP.set_covariance m n A s).activation_correlation =
         s.activation_correlation ∧
       (MLP.set_covariance m n A s).correlation_squared = s.correlation_squared ∧
       (MLP.set_covariance m n A s).off_diag_cor_sqr = s.off_diag_cor_sqr) ∧
      ((MLP.set_correlation m n A s).covariance_squared = s.covariance_squared ∧
       (MLP.set_correlation m n A s).off_diag_cov_sqr = s.off_diag_cov_sqr) ∧
      (MLP.set_correlation m n A (MLP.set_covariance m n A s) =
         MLP.set_covariance m n A (MLP.set_correlation m n A s) ∧
       (MLP.set_correlation m n A (MLP.set_covariance m n A s)).off_diag_cov_sqr =
         some (MLP.off_diag_cov_sqr m n A) ∧
       (MLP.set_correlation m n A (MLP.set_covariance m n A s)).off_diag_cor_sqr =
         some (MLP.off_diag_cor_sqr m n A)) :=
  fun _ _ _ _ =>
    ⟨⟨rfl, rfl, rfl, rfl⟩, ⟨rfl, rfl, rfl, rfl⟩, ⟨rfl, rfl, rfl, rfl⟩,
     ⟨rfl, rfl⟩, ⟨rfl, rfl, rfl⟩⟩
